import Mathlib

/-!
Verification of the Photo Upload API server (server.js) against its
specification. The single piece of original logic, the unique filename
generator, is embedded directly; the HTTP layer is embedded as pure
request-to-response functions, with the behavior of the third-party
collaborators (multer, Express routing, the storage SDK, the system clock
and randomness source) modelled from their documented semantics and passed
in as explicit parameters.
-/

namespace PhotoUpload

/-! ### Characters, hex encoding and decimal printing -/

/-- The lowercase hexadecimal digit for a value below 16, as produced by
Node's Buffer.toString with the hex encoding. -/
def hexDigitChar (n : Nat) : Char :=
  if n < 10 then Char.ofNat (48 + n) else Char.ofNat (87 + n)

/-- Two lowercase hex characters for one byte. -/
def byteToHex (b : Nat) : List Char :=
  [hexDigitChar (b / 16), hexDigitChar (b % 16)]

/-- Hex encoding of a byte sequence, as in buffer.toString with hex. -/
def bytesToHex : List Nat → List Char
  | [] => []
  | b :: bs => byteToHex b ++ bytesToHex bs

/-- The decimal digit character for a value (taken mod 10). -/
def digitChar (n : Nat) : Char :=
  Char.ofNat (48 + n % 10)

/-- Digit-list worker: fuel bounds the recursion depth, and a fuel of one
more than the printed number always suffices since dividing by ten
shrinks the argument. -/
def natDigitsAux : Nat → Nat → List Char
  | 0, _ => []
  | fuel + 1, n =>
    if n < 10 then [digitChar n]
    else natDigitsAux fuel (n / 10) ++ [digitChar n]

/-- Decimal digit list of a natural number, most significant first, as
produced by JavaScript number-to-string conversion on a nonnegative
integer such as Date.now(). -/
def natDigits (n : Nat) : List Char :=
  natDigitsAux (n + 1) n

/-- Decimal string of a natural number. -/
def natToStr (n : Nat) : String :=
  String.mk (natDigits n)

/-! ### JavaScript split on the dot character -/

/-- Prepend a character to the first piece of a nonempty piece list. -/
def consHead (c : Char) : List (List Char) → List (List Char)
  | [] => [[c]]
  | p :: ps => (c :: p) :: ps

/-- JavaScript String.prototype.split with separator "." on a character
list: splitting the empty string gives one empty piece, and each dot
starts a new piece. -/
def splitOnDot : List Char → List (List Char)
  | [] => [[]]
  | c :: cs => if c = '.' then [] :: splitOnDot cs else consHead c (splitOnDot cs)

/-! ### The filename generator (server.js lines 36-43) -/

/-- The extension chosen by generateUniqueFilename: the last piece of
originalName split on dots, with the empty string (the only falsy string)
replaced by jpg, translating originalName.split(dot).pop() or-else jpg.
JavaScript pop on the split result always finds a piece, since split never
returns an empty array. -/
def extOf (originalName : String) : String :=
  let p := (splitOnDot originalName.data).getLastD []
  if p = [] then "jpg" else String.mk p

/-- generateUniqueFilename from server.js. The call to Date.now() is the
timestamp parameter, crypto.randomBytes(8) is the randomBytes parameter,
and crypto.createHash with md5 is the md5 parameter mapping the hashed
string to its 16-byte digest; all three are external effects of the
original function. The template is hash, underscore, random hex,
underscore, timestamp, dot, extension. -/
def generateUniqueFilename (md5 : String → List Nat) (randomBytes : List Nat)
    (timestamp : Nat) (originalName : String) : String :=
  let hash := String.mk ((bytesToHex (md5 (originalName ++ natToStr timestamp))).take 8)
  let randomHex := String.mk (bytesToHex randomBytes)
  let ext := extOf originalName
  hash ++ "_" ++ randomHex ++ "_" ++ natToStr timestamp ++ "." ++ ext

/-! ### Observers used to state properties of generated filenames -/

/-- The text after the final dot of a string (the whole string when no dot
occurs): the last piece of the dot-split. -/
def extensionPart (s : String) : String :=
  String.mk ((splitOnDot s.data).getLastD [])

/-- Drop characters up to and including the first underscore. -/
def dropThroughUnderscore : List Char → List Char
  | [] => []
  | c :: cs => if c = '_' then cs else dropThroughUnderscore cs

/-- The decimal timestamp field embedded in a generated filename: the
characters strictly between the second underscore and the next dot. -/
def extractTimestamp (s : String) : String :=
  String.mk ((dropThroughUnderscore (dropThroughUnderscore s.data)).takeWhile (fun c => c != '.'))

/-- Lowercase hexadecimal character class of the filename pattern. -/
def isHexChar (c : Char) : Bool :=
  ('0' ≤ c && c ≤ '9') || ('a' ≤ c && c ≤ 'f')

/-- Decimal digit character class. -/
def isDigitChar (c : Char) : Bool :=
  '0' ≤ c && c ≤ '9'

/-- The anchored filename pattern of the specification: eight lowercase hex
characters, an underscore, sixteen lowercase hex characters, an underscore,
a nonempty run of decimal digits, a dot, and a nonempty dot-free
extension. -/
def matchesFilenamePattern (s : String) : Prop :=
  ∃ h r t e : List Char,
    s.data = h ++ '_' :: r ++ '_' :: t ++ '.' :: e ∧
    h.length = 8 ∧ h.all isHexChar = true ∧
    r.length = 16 ∧ r.all isHexChar = true ∧
    t ≠ [] ∧ t.all isDigitChar = true ∧
    e ≠ [] ∧ e.all (fun c => c != '.') = true

/-! ### The Date toISOString model (ECMAScript), used by GET /health -/

/-- Gregorian leap-year test. -/
def isLeapYear (y : Nat) : Bool :=
  (y % 4 == 0 && y % 100 != 0) || y % 400 == 0

/-- Days in a Gregorian year. -/
def daysInYear (y : Nat) : Nat :=
  if isLeapYear y then 366 else 365

/-- From a start year and a day count, the civil year and the day index
within it. -/
def civilYear (y days : Nat) : Nat × Nat :=
  if _h : days < daysInYear y then (y, days)
  else civilYear (y + 1) (days - daysInYear y)
termination_by days
decreasing_by
  have h365 : 365 ≤ daysInYear y := by unfold daysInYear; split <;> omega
  omega

/-- Month lengths, January first. -/
def monthLengths (leap : Bool) : List Nat :=
  [31, if leap then 29 else 28, 31, 30, 31, 30, 31, 31, 30, 31, 30, 31]

/-- From the month-length table and a day index within the year, the
one-based month and day of month. -/
def monthAndDay : List Nat → Nat → Nat × Nat
  | [], d => (1, d + 1)
  | m :: ms, d =>
    if d < m then (1, d + 1)
    else
      let r := monthAndDay ms (d - m)
      (r.fst + 1, r.snd)

/-- Two-character zero-padded decimal field. -/
def pad2 (n : Nat) : List Char :=
  [digitChar (n / 10), digitChar n]

/-- Three-character zero-padded decimal field. -/
def pad3 (n : Nat) : List Char :=
  [digitChar (n / 100), digitChar (n / 10), digitChar n]

/-- Four-character zero-padded decimal field. -/
def pad4 (n : Nat) : List Char :=
  [digitChar (n / 1000), digitChar (n / 100), digitChar (n / 10), digitChar n]

/-- Date.prototype.toISOString on a millisecond count since the epoch, as
specified by ECMAScript for dates whose year fits the plain four-digit
form: year-month-dayThours:minutes:seconds.millisZ. -/
def toISOString (ms : Nat) : String :=
  let millis := ms % 1000
  let totalSeconds := ms / 1000
  let seconds := totalSeconds % 60
  let totalMinutes := totalSeconds / 60
  let minutes := totalMinutes % 60
  let totalHours := totalMinutes / 60
  let hours := totalHours % 24
  let days := totalHours / 24
  let yd := civilYear 1970 days
  let md := monthAndDay (monthLengths (isLeapYear yd.fst)) yd.snd
  String.mk (pad4 yd.fst ++ '-' :: pad2 md.fst ++ '-' :: pad2 md.snd ++
    'T' :: pad2 hours ++ ':' :: pad2 minutes ++ ':' :: pad2 seconds ++
    '.' :: pad3 millis ++ ['Z'])

/-- Shape of an ISO-8601 basic timestamp with millisecond precision and the
Z suffix: four digit year, two digit month, day, hours, minutes, seconds,
three digit milliseconds, with the fixed separators. -/
def isIso8601 (s : String) : Prop :=
  ∃ y o d h i e f : List Char,
    s.data = y ++ '-' :: o ++ '-' :: d ++ 'T' :: h ++ ':' :: i ++ ':' :: e ++ '.' :: f ++ ['Z'] ∧
    y.length = 4 ∧ o.length = 2 ∧ d.length = 2 ∧ h.length = 2 ∧
    i.length = 2 ∧ e.length = 2 ∧ f.length = 3 ∧
    (y ++ o ++ d ++ h ++ i ++ e ++ f).all isDigitChar = true

/-! ### The HTTP layer (server.js lines 22-33, 46-52, 55-108, 111-149,
152-166) -/

/-- JavaScript String.prototype.startsWith on the embedded strings, as a
character-list prefix test. -/
def strStartsWith (s pre : String) : Bool :=
  pre.data.isPrefixOf s.data

/-- The metadata multer exposes for the single uploaded file. -/
structure UploadedFile where
  originalname : String
  mimetype : String
  size : Nat
deriving DecidableEq

/-- The 5MB upload cap from the multer limits option (server.js line 25). -/
def fileSizeLimit : Nat := 5 * 1024 * 1024

/-- An error reaching the Express error middleware: either a plain Error
with a message, or a MulterError carrying a code (the instanceof check in
the middleware distinguishes the two). -/
inductive AppError where
  | plain (message : String)
  | multer (code : String) (message : String)
deriving DecidableEq

/-- Outcome of the multer single-file middleware: an error handed to the
error middleware, or control passing to the route handler with the
optional file. -/
inductive MulterOutcome where
  | failed (e : AppError)
  | passed (file : Option UploadedFile)
deriving DecidableEq

/-- The multer single-file stage with the configuration of server.js
lines 22-33. Multer consults the fileFilter when a file begins, before any
content is buffered, so a file the filter rejects produces the filter's
plain Error (fileFilter callback at line 30) and is never measured against
the size limit; an accepted file whose content exceeds the fileSize limit
aborts with a MulterError coded LIMIT_FILE_SIZE; a request with no file
field passes through with no file. -/
def multerSingle (photo : Option UploadedFile) : MulterOutcome :=
  match photo with
  | none => .passed none
  | some f =>
    if strStartsWith f.mimetype "image/" then
      if f.size > fileSizeLimit then .failed (.multer "LIMIT_FILE_SIZE" "File too large")
      else .passed (some f)
    else .failed (.plain "Only image files allowed")

/-- A JSON response body of the server. -/
inductive RespBody where
  | err (success : Bool) (error : String)
  | uploadData (success : Bool) (message filename url : String) (size : Nat) (ctype : String)
  | deleteData (success : Bool) (message filename : String)
  | notFoundHtml
deriving DecidableEq

/-- An HTTP response: status code and body. -/
structure Resp where
  status : Nat
  body : RespBody
deriving DecidableEq

/-- A call made to the storage gateway. -/
inductive StorageCall where
  | upload (key : String)
  | remove (key : String)
deriving DecidableEq

/-- The error middleware of server.js lines 152-166: a MulterError coded
LIMIT_FILE_SIZE becomes a 400 with the file-too-large message; every other
error becomes a 500 carrying the error message, with the or-else fallback
text for an empty message. -/
def errorMiddleware (e : AppError) : Resp :=
  match e with
  | .multer code msg =>
    if code = "LIMIT_FILE_SIZE" then ⟨400, .err false "File too large (max 5MB)"⟩
    else ⟨500, .err false (if msg = "" then "Something went wrong" else msg)⟩
  | .plain msg => ⟨500, .err false (if msg = "" then "Something went wrong" else msg)⟩

/-- The POST /upload pipeline (multer stage, route handler of server.js
lines 55-108, error middleware). The storage SDK call is recorded in the
returned call list; its result is the storageErr parameter (an error
message, or none on success), and getPublicUrl is the publicUrl
parameter. -/
def postUpload (md5 : String → List Nat) (randomBytes : List Nat) (timestamp : Nat)
    (publicUrl : String → String) (storageErr : Option String)
    (photo : Option UploadedFile) : Resp × List StorageCall :=
  match multerSingle photo with
  | .failed e => (errorMiddleware e, [])
  | .passed none => (⟨400, .err false "No photo file provided"⟩, [])
  | .passed (some f) =>
    let uniqueFilename := generateUniqueFilename md5 randomBytes timestamp f.originalname
    match storageErr with
    | some msg => (⟨500, .err false ("Upload failed: " ++ msg)⟩, [.upload uniqueFilename])
    | none =>
      (⟨200, .uploadData true "Photo uploaded successfully" uniqueFilename
          (publicUrl uniqueFilename) f.size f.mimetype⟩,
        [.upload uniqueFilename])

/-- The DELETE /delete/:filename route handler of server.js lines 111-149,
given the filename parameter Express extracted. The storage remove call is
recorded in the returned call list; its result is the storageErr
parameter. -/
def deleteHandler (storageErr : Option String) (filename : String) : Resp × List StorageCall :=
  if filename = "" then (⟨400, .err false "Filename is required"⟩, [])
  else
    match storageErr with
    | some msg => (⟨500, .err false ("Delete failed: " ++ msg)⟩, [.remove filename])
    | none => (⟨200, .deleteData true "Photo deleted successfully" filename⟩, [.remove filename])

/-- Express route matching for DELETE /delete/:filename on a path given as
its slash-separated segments: the pattern matches exactly the paths of two
segments whose first is delete and whose second, the filename parameter,
is nonempty, since a path parameter requires at least one character. -/
def routeDelete (pathSegs : List String) : Option String :=
  match pathSegs with
  | [p, f] => if p = "delete" ∧ f ≠ "" then some f else none
  | _ => none

/-- Dispatch of a DELETE request: a matched route runs the handler, an
unmatched path gets the Express default 404 response. -/
def dispatchDelete (storageErr : Option String) (pathSegs : List String) : Resp × List StorageCall :=
  match routeDelete pathSegs with
  | some f => deleteHandler storageErr f
  | none => (⟨404, .notFoundHtml⟩, [])

/-- Body of the GET /health response. -/
structure HealthBody where
  status : String
  timestamp : String
  service : String
deriving DecidableEq

/-- The GET /health handler of server.js lines 46-52: always a 200 with
the fixed status and service strings and the ISO timestamp of the current
time. -/
def healthHandler (now : Nat) : Nat × HealthBody :=
  (200, ⟨"OK", toISOString now, "Photo Upload API"⟩)

/-! ### Character class lemmas -/

theorem isDigitChar_ofNat_of_lt {k : Nat} (hk : k < 10) :
    isDigitChar (Char.ofNat (48 + k)) = true := by
  interval_cases k <;> decide

theorem isDigitChar_digitChar (n : Nat) : isDigitChar (digitChar n) = true := by
  have hk : n % 10 < 10 := Nat.mod_lt _ (by omega)
  exact isDigitChar_ofNat_of_lt hk

theorem isHexChar_hexDigitChar {n : Nat} (hn : n < 16) :
    isHexChar (hexDigitChar n) = true := by
  interval_cases n <;> decide

theorem ne_dot_of_isDigitChar {c : Char} (h : isDigitChar c = true) : c ≠ '.' := by
  intro he
  subst he
  exact absurd h (by decide)

theorem ne_underscore_of_isDigitChar {c : Char} (h : isDigitChar c = true) : c ≠ '_' := by
  intro he
  subst he
  exact absurd h (by decide)

theorem ne_dot_of_isHexChar {c : Char} (h : isHexChar c = true) : c ≠ '.' := by
  intro he
  subst he
  exact absurd h (by decide)

theorem ne_underscore_of_isHexChar {c : Char} (h : isHexChar c = true) : c ≠ '_' := by
  intro he
  subst he
  exact absurd h (by decide)

/-! ### Hex encoding lemmas -/

theorem bytesToHex_length (bs : List Nat) : (bytesToHex bs).length = 2 * bs.length := by
  induction bs with
  | nil => rfl
  | cons b bs ih => simp [bytesToHex, byteToHex, ih]; omega

theorem bytesToHex_all_hex {bs : List Nat} (hb : ∀ b ∈ bs, b < 256) :
    (bytesToHex bs).all isHexChar = true := by
  induction bs with
  | nil => rfl
  | cons b bs ih =>
    have hb0 : b < 256 := hb b (by simp)
    have h1 : b / 16 < 16 := by omega
    have h2 : b % 16 < 16 := Nat.mod_lt _ (by omega)
    simp only [bytesToHex, byteToHex, List.all_append, List.all_cons, List.all_nil,
      Bool.and_eq_true]
    exact ⟨⟨isHexChar_hexDigitChar h1, isHexChar_hexDigitChar h2, trivial⟩,
      ih (fun x hx => hb x (by simp [hx]))⟩

/-! ### Decimal digit list lemmas -/

theorem natDigitsAux_ne_nil (fuel n : Nat) : natDigitsAux (fuel + 1) n ≠ [] := by
  simp only [natDigitsAux]
  split <;> simp

theorem natDigits_ne_nil (n : Nat) : natDigits n ≠ [] :=
  natDigitsAux_ne_nil n n

theorem natDigitsAux_all_digit (fuel n : Nat) :
    (natDigitsAux fuel n).all isDigitChar = true := by
  induction fuel generalizing n with
  | zero => rfl
  | succ fuel ih =>
    simp only [natDigitsAux]
    split
    · simp [isDigitChar_digitChar]
    · rw [List.all_append]
      simp [ih (n / 10), isDigitChar_digitChar]

theorem natDigits_all_digit (n : Nat) : (natDigits n).all isDigitChar = true :=
  natDigitsAux_all_digit (n + 1) n

/-! ### splitOnDot lemmas -/

theorem splitOnDot_cons_dot (cs : List Char) :
    splitOnDot ('.' :: cs) = [] :: splitOnDot cs := by
  simp [splitOnDot]

theorem splitOnDot_cons_ne {c : Char} (hc : c ≠ '.') (cs : List Char) :
    splitOnDot (c :: cs) = consHead c (splitOnDot cs) := by
  simp [splitOnDot, hc]

theorem getLastD_cons_ne_nil {α : Type} {l : List α} (hl : l ≠ []) (a d : α) :
    (a :: l).getLastD d = l.getLastD d := by
  cases l with
  | nil => exact absurd rfl hl
  | cons b bs => simp [List.getLastD_eq_getLast?, List.getLast?_cons_cons]

theorem splitOnDot_ne_nil (l : List Char) : splitOnDot l ≠ [] := by
  induction l with
  | nil => simp [splitOnDot]
  | cons c cs ih =>
    simp only [splitOnDot]
    split
    · simp
    · cases hs : splitOnDot cs with
      | nil => exact absurd hs ih
      | cons p ps => simp [consHead]

theorem splitOnDot_no_dot (l : List Char) : ∀ p ∈ splitOnDot l, '.' ∉ p := by
  induction l with
  | nil => intro p hp; simp [splitOnDot] at hp; simp [hp]
  | cons c cs ih =>
    intro p hp
    simp only [splitOnDot] at hp
    by_cases hc : c = '.'
    · rw [if_pos hc] at hp
      rcases List.mem_cons.mp hp with h1 | h2
      · simp [h1]
      · exact ih p h2
    · rw [if_neg hc] at hp
      cases hs : splitOnDot cs with
      | nil => exact absurd hs (splitOnDot_ne_nil cs)
      | cons q qs =>
        rw [hs] at hp
        simp only [consHead] at hp
        rcases List.mem_cons.mp hp with h1 | h2
        · subst h1
          intro hmem
          rcases List.mem_cons.mp hmem with h3 | h4
          · exact hc h3.symm
          · exact ih q (by simp [hs]) h4
        · exact ih p (by simp [hs, h2])

theorem splitOnDot_of_no_dot {l : List Char} (h : '.' ∉ l) : splitOnDot l = [l] := by
  induction l with
  | nil => rfl
  | cons c cs ih =>
    have hc : c ≠ '.' := fun he => h (by simp [he])
    have hcs : '.' ∉ cs := fun hm => h (by simp [hm])
    simp only [splitOnDot, if_neg hc, ih hcs, consHead]

theorem splitOnDot_concat_dot (l : List Char) :
    splitOnDot (l ++ ['.']) = splitOnDot l ++ [[]] := by
  induction l with
  | nil => rfl
  | cons c cs ih =>
    by_cases hc : c = '.'
    · subst hc
      rw [List.cons_append, splitOnDot_cons_dot, splitOnDot_cons_dot, ih, List.cons_append]
    · rw [List.cons_append, splitOnDot_cons_ne hc, splitOnDot_cons_ne hc, ih]
      cases hs : splitOnDot cs with
      | nil => exact absurd hs (splitOnDot_ne_nil cs)
      | cons p ps => simp [consHead]

theorem splitOnDot_length (l : List Char) :
    (splitOnDot l).length = l.count '.' + 1 := by
  induction l with
  | nil => rfl
  | cons c cs ih =>
    by_cases hc : c = '.'
    · subst hc
      simp [splitOnDot, ih, List.count_cons]
    · simp only [splitOnDot, if_neg hc]
      cases hs : splitOnDot cs with
      | nil => exact absurd hs (splitOnDot_ne_nil cs)
      | cons p ps =>
        rw [hs] at ih
        simp only [consHead, List.length_cons] at *
        rw [List.count_cons]
        simp [hc, ih]

theorem getLastD_splitOnDot_concat {e : List Char} (p : List Char) (he : '.' ∉ e) :
    (splitOnDot (p ++ '.' :: e)).getLastD [] = e := by
  induction p with
  | nil =>
    rw [List.nil_append, splitOnDot_cons_dot, splitOnDot_of_no_dot he]
    simp [List.getLastD_eq_getLast?]
  | cons c cs ih =>
    by_cases hc : c = '.'
    · subst hc
      rw [List.cons_append, splitOnDot_cons_dot,
        getLastD_cons_ne_nil (splitOnDot_ne_nil _) [] []]
      exact ih
    · rw [List.cons_append, splitOnDot_cons_ne hc]
      cases hs : splitOnDot (cs ++ '.' :: e) with
      | nil => exact absurd hs (splitOnDot_ne_nil _)
      | cons q qs =>
        have hlen : (splitOnDot (cs ++ '.' :: e)).length = (cs ++ '.' :: e).count '.' + 1 :=
          splitOnDot_length _
        have hcount : 1 ≤ (cs ++ '.' :: e).count '.' := by
          rw [List.count_append, List.count_cons_self]
          omega
        rw [hs] at hlen
        have hqs : qs ≠ [] := by
          intro hq
          subst hq
          simp only [List.length_cons, List.length_nil] at hlen
          omega
        rw [hs] at ih
        rw [getLastD_cons_ne_nil hqs q []] at ih
        show ((c :: q) :: qs).getLastD [] = e
        rw [getLastD_cons_ne_nil hqs (c :: q) []]
        exact ih

/-! ### Structure of generated filenames -/

theorem generate_data (md5 : String → List Nat) (rand : List Nat) (ts : Nat) (name : String) :
    (generateUniqueFilename md5 rand ts name).data =
      (bytesToHex (md5 (name ++ natToStr ts))).take 8 ++
        '_' :: bytesToHex rand ++ '_' :: natDigits ts ++ '.' :: (extOf name).data := by
  simp [generateUniqueFilename, String.data_append, natToStr]

theorem getLastD_mem_cons {α : Type} (a : α) (as : List α) (d : α) :
    (a :: as).getLastD d ∈ a :: as := by
  induction as generalizing a with
  | nil => simp [List.getLastD_eq_getLast?]
  | cons b bs ih =>
    rw [getLastD_cons_ne_nil (by simp) a d]
    exact List.mem_cons_of_mem a (ih b)

theorem extOf_no_dot (name : String) : '.' ∉ (extOf name).data := by
  simp only [extOf]
  split
  · decide
  · cases hs : splitOnDot name.data with
    | nil => exact absurd hs (splitOnDot_ne_nil _)
    | cons p ps =>
      exact splitOnDot_no_dot name.data _ (by rw [hs]; exact getLastD_mem_cons p ps [])

theorem extOf_ne_nil (name : String) : (extOf name).data ≠ [] := by
  simp only [extOf]
  split
  · decide
  · rename_i h
    exact h

theorem extensionPart_generate (md5 : String → List Nat) (rand : List Nat)
    (ts : Nat) (name : String) :
    extensionPart (generateUniqueFilename md5 rand ts name) = extOf name := by
  unfold extensionPart
  rw [generate_data]
  have hassoc : (bytesToHex (md5 (name ++ natToStr ts))).take 8 ++
      '_' :: bytesToHex rand ++ '_' :: natDigits ts ++ '.' :: (extOf name).data =
      ((bytesToHex (md5 (name ++ natToStr ts))).take 8 ++
        '_' :: bytesToHex rand ++ '_' :: natDigits ts) ++ '.' :: (extOf name).data := by
    simp
  rw [hassoc, getLastD_splitOnDot_concat _ (extOf_no_dot name)]

/-! ### Field-extraction lemmas -/

theorem dropThroughUnderscore_append {h rest : List Char} (hh : ∀ c ∈ h, c ≠ '_') :
    dropThroughUnderscore (h ++ '_' :: rest) = rest := by
  induction h with
  | nil => simp [dropThroughUnderscore]
  | cons c cs ih =>
    have hc : c ≠ '_' := hh c (by simp)
    simp only [List.cons_append, dropThroughUnderscore, if_neg hc]
    exact ih (fun x hx => hh x (by simp [hx]))

theorem takeWhile_append_dot {t : List Char} (e : List Char) (ht : ∀ c ∈ t, c ≠ '.') :
    (t ++ '.' :: e).takeWhile (fun c => c != '.') = t := by
  induction t with
  | nil => simp [List.takeWhile_cons]
  | cons c cs ih =>
    have hc : c ≠ '.' := ht c (by simp)
    have hb : (c != '.') = true := bne_iff_ne.mpr hc
    simp only [List.cons_append, List.takeWhile_cons, hb, if_true]
    rw [ih (fun x hx => ht x (by simp [hx]))]

theorem all_hex_take {bs : List Nat} (hb : ∀ b ∈ bs, b < 256) (n : Nat) :
    ((bytesToHex bs).take n).all isHexChar = true := by
  rw [List.all_eq_true]
  intro x hx
  exact List.all_eq_true.mp (bytesToHex_all_hex hb) x (List.take_subset n _ hx)

theorem no_underscore_of_all_hex {l : List Char} (h : l.all isHexChar = true) :
    ∀ c ∈ l, c ≠ '_' :=
  fun c hc => ne_underscore_of_isHexChar (List.all_eq_true.mp h c hc)

theorem no_dot_of_all_digit {l : List Char} (h : l.all isDigitChar = true) :
    ∀ c ∈ l, c ≠ '.' :=
  fun c hc => ne_dot_of_isDigitChar (List.all_eq_true.mp h c hc)

/-! ### Concrete stand-ins for the external md5 digest and random bytes,
used to run the embedding on closed inputs -/

/-- A fixed 16-byte digest function standing in for md5 on concrete runs. -/
def md5Const : String → List Nat := fun _ => List.replicate 16 0

/-- A fixed 8-byte random value for concrete runs. -/
def randConst : List Nat := List.replicate 8 0

/-! ### Claims about the filename generator -/

/-- Claim C1, counterexample: for the dot-free nonempty original name
photo, the generated filename's extension part is photo itself and not
jpg: JavaScript split-pop on a dot-free string returns the whole string,
which is truthy, so the or-else jpg default never applies. -/
theorem C1_counterexample :
    ('.' ∉ "photo".data) ∧
    extensionPart (generateUniqueFilename md5Const randConst 0 "photo") ≠ "jpg" := by
  decide

/-- Claim C1 as amended: for an originalName containing no dot, the
extension part of the generated filename is jpg when originalName is
empty, and originalName itself otherwise. -/
theorem C1_amended (md5 : String → List Nat) (rand : List Nat) (ts : Nat)
    (name : String) (hd : '.' ∉ name.data) :
    extensionPart (generateUniqueFilename md5 rand ts name) =
      if name = "" then "jpg" else name := by
  rw [extensionPart_generate]
  by_cases hn : name = ""
  · subst hn
    rw [if_pos rfl]
    decide
  · rw [if_neg hn]
    have hdn : name.data ≠ [] := by
      intro h
      exact hn (String.ext (h.trans rfl))
    simp only [extOf]
    rw [splitOnDot_of_no_dot hd]
    have hl : ([name.data] : List (List Char)).getLastD [] = name.data := by
      simp [List.getLastD_eq_getLast?]
    rw [hl, if_neg hdn]

/-- Claim C1, witness for the amended statement at the name photo. -/
theorem C1_amended_witness :
    ('.' ∉ "photo".data) ∧
    extensionPart (generateUniqueFilename md5Const randConst 7 "photo") =
      if "photo" = "" then "jpg" else "photo" :=
  ⟨by decide, C1_amended md5Const randConst 7 "photo" (by decide)⟩

/-- Claim C9: for the empty originalName and for any originalName ending
in a dot, the generated filename's extension part is jpg, so the result
never ends in a bare dot. -/
theorem C9_empty_or_trailing_dot_gives_jpg (md5 : String → List Nat) (rand : List Nat)
    (ts : Nat) (name : String)
    (hn : name = "" ∨ ∃ q : List Char, name.data = q ++ ['.']) :
    extensionPart (generateUniqueFilename md5 rand ts name) = "jpg" := by
  rw [extensionPart_generate]
  rcases hn with hn | ⟨q, hq⟩
  · subst hn
    decide
  · simp only [extOf]
    rw [hq, splitOnDot_concat_dot]
    have hl : (splitOnDot q ++ [[]]).getLastD [] = ([] : List Char) := by
      simp [List.getLastD_eq_getLast?]
    rw [hl, if_pos rfl]

/-- Claim C9, witness at the trailing-dot name. -/
theorem C9_witness :
    extensionPart (generateUniqueFilename md5Const randConst 5 "a.") = "jpg" :=
  C9_empty_or_trailing_dot_gives_jpg md5Const randConst 5 "a." (Or.inr ⟨['a'], rfl⟩)

/-- Claim C4: every generated filename matches the anchored pattern of
eight lowercase hex characters, an underscore, sixteen lowercase hex
characters, an underscore, a nonempty decimal digit run, a dot and a
nonempty dot-free extension, given that md5 returns a 16-byte digest and
the random value is 8 bytes. -/
theorem C4_filename_pattern (md5 : String → List Nat) (rand : List Nat) (ts : Nat)
    (name : String)
    (hm : (md5 (name ++ natToStr ts)).length = 16)
    (hmb : ∀ b ∈ md5 (name ++ natToStr ts), b < 256)
    (hr : rand.length = 8) (hrb : ∀ b ∈ rand, b < 256) :
    matchesFilenamePattern (generateUniqueFilename md5 rand ts name) := by
  refine ⟨(bytesToHex (md5 (name ++ natToStr ts))).take 8, bytesToHex rand,
    natDigits ts, (extOf name).data, generate_data md5 rand ts name,
    ?_, all_hex_take hmb 8, ?_, bytesToHex_all_hex hrb,
    natDigits_ne_nil ts, natDigits_all_digit ts, extOf_ne_nil name, ?_⟩
  · simp [List.length_take, bytesToHex_length, hm]
  · simp [bytesToHex_length, hr]
  · rw [List.all_eq_true]
    intro c hc
    exact bne_iff_ne.mpr (fun he => extOf_no_dot name (he ▸ hc))

/-- Claim C4, witness at the empty name and zero time. -/
theorem C4_witness :
    (md5Const ("" ++ natToStr 0)).length = 16 ∧
    (∀ b ∈ md5Const ("" ++ natToStr 0), b < 256) ∧
    randConst.length = 8 ∧ (∀ b ∈ randConst, b < 256) ∧
    matchesFilenamePattern (generateUniqueFilename md5Const randConst 0 "") :=
  ⟨by decide, by decide, by decide, by decide,
    C4_filename_pattern md5Const randConst 0 "" (by decide) (by decide) (by decide) (by decide)⟩

/-- Claim C10: in every generated filename, the decimal timestamp field
between the second underscore and the following dot is the very timestamp
value that was concatenated with originalName to form the md5 hash input
whose first eight hex characters open the filename. -/
theorem C10_single_timestamp (md5 : String → List Nat) (rand : List Nat)
    (ts : Nat) (name : String)
    (hm : (md5 (name ++ natToStr ts)).length = 16)
    (hmb : ∀ b ∈ md5 (name ++ natToStr ts), b < 256)
    (hrb : ∀ b ∈ rand, b < 256) :
    extractTimestamp (generateUniqueFilename md5 rand ts name) = natToStr ts ∧
    (generateUniqueFilename md5 rand ts name).data.take 8 =
      (bytesToHex (md5 (name ++ extractTimestamp (generateUniqueFilename md5 rand ts name)))).take 8 := by
  have hnorm : (bytesToHex (md5 (name ++ natToStr ts))).take 8 ++
      '_' :: bytesToHex rand ++ '_' :: natDigits ts ++ '.' :: (extOf name).data =
      (bytesToHex (md5 (name ++ natToStr ts))).take 8 ++
        ('_' :: (bytesToHex rand ++ ('_' :: (natDigits ts ++ ('.' :: (extOf name).data))))) := by
    simp
  have hts : extractTimestamp (generateUniqueFilename md5 rand ts name) = natToStr ts := by
    unfold extractTimestamp
    rw [generate_data, hnorm,
      dropThroughUnderscore_append (no_underscore_of_all_hex (all_hex_take hmb 8)),
      dropThroughUnderscore_append (no_underscore_of_all_hex (bytesToHex_all_hex hrb)),
      takeWhile_append_dot _ (no_dot_of_all_digit (natDigits_all_digit ts))]
    rfl
  refine ⟨hts, ?_⟩
  rw [hts, generate_data, hnorm]
  have hlen : ((bytesToHex (md5 (name ++ natToStr ts))).take 8).length = 8 := by
    simp [List.length_take, bytesToHex_length, hm]
  rw [List.take_append_eq_append_take, List.take_of_length_le (le_of_eq hlen), hlen]
  simp

/-- Claim C10, witness at a concrete name and time. -/
theorem C10_witness :
    (md5Const ("img" ++ natToStr 42)).length = 16 ∧
    (∀ b ∈ md5Const ("img" ++ natToStr 42), b < 256) ∧
    (∀ b ∈ randConst, b < 256) ∧
    (extractTimestamp (generateUniqueFilename md5Const randConst 42 "img") = natToStr 42 ∧
      (generateUniqueFilename md5Const randConst 42 "img").data.take 8 =
        (bytesToHex (md5Const ("img" ++ extractTimestamp (generateUniqueFilename md5Const randConst 42 "img")))).take 8) :=
  ⟨by decide, by decide, by decide,
    C10_single_timestamp md5Const randConst 42 "img" (by decide) (by decide) (by decide)⟩

/-! ### Claims about the HTTP layer -/

/-- Claim C6: a POST upload request with no photo field gets HTTP 400
with success false and the no-photo-file error string, and makes no
storage call. -/
theorem C6_no_photo_field (md5 : String → List Nat) (rand : List Nat) (ts : Nat)
    (publicUrl : String → String) (storageErr : Option String) :
    postUpload md5 rand ts publicUrl storageErr none =
      (⟨400, .err false "No photo file provided"⟩, []) := rfl

/-- Claim C2, counterexample: a 100-byte text-plain upload is answered
with HTTP 500, not 400: the fileFilter rejects with a plain Error, which
the error middleware does not recognize as a MulterError, so it falls to
the generic 500 branch. -/
theorem C2_counterexample :
    (postUpload md5Const randConst 0 (fun s => s) none
        (some ⟨"a.png", "text/plain", 100⟩)).fst.status = 500 ∧
    (postUpload md5Const randConst 0 (fun s => s) none
        (some ⟨"a.png", "text/plain", 100⟩)).fst.status ≠ 400 := by
  decide

/-- Claim C2 as amended: an upload whose file has a MIME type not
starting with image/ is answered with HTTP 500 and the machine-readable
error Only image files allowed, with no storage call. -/
theorem C2_nonimage_mime (md5 : String → List Nat) (rand : List Nat) (ts : Nat)
    (publicUrl : String → String) (storageErr : Option String) (f : UploadedFile)
    (hmt : strStartsWith f.mimetype "image/" = false) :
    postUpload md5 rand ts publicUrl storageErr (some f) =
      (⟨500, .err false "Only image files allowed"⟩, []) := by
  simp [postUpload, multerSingle, hmt, errorMiddleware]

/-- Claim C2, witness at a PDF upload. -/
theorem C2_witness :
    (strStartsWith "application/pdf" "image/" = false) ∧
    postUpload md5Const randConst 3 (fun s => s) none
        (some ⟨"doc.pdf", "application/pdf", 100⟩) =
      (⟨500, .err false "Only image files allowed"⟩, []) :=
  ⟨by decide, C2_nonimage_mime md5Const randConst 3 (fun s => s) none
    ⟨"doc.pdf", "application/pdf", 100⟩ (by decide)⟩

/-- Claim C3, counterexample: the DELETE path with the empty filename
segment is answered 404, not 400: the Express route pattern requires a
nonempty parameter segment, so the request never reaches the handler. -/
theorem C3_counterexample :
    (dispatchDelete none ["delete", ""]).fst.status = 404 ∧
    (dispatchDelete none ["delete", ""]).fst.status ≠ 400 := by
  decide

/-- Claim C3 as amended: a DELETE request with path /delete/ and an empty
filename segment does not match the route, so Express answers with its
default 404; the handler's 400 filename-required branch is unreachable
through routing, and no storage call is made. -/
theorem C3_empty_filename_404 (storageErr : Option String) :
    dispatchDelete storageErr ["delete", ""] = (⟨404, .notFoundHtml⟩, []) := rfl

/-- Claim C5: an upload request rejected as a client input error
(missing file, non-image MIME type, or oversized file) makes no storage
call: the call list of the pipeline is empty. -/
theorem C5_no_storage_call_on_client_error (md5 : String → List Nat) (rand : List Nat)
    (ts : Nat) (publicUrl : String → String) (storageErr : Option String)
    (photo : Option UploadedFile)
    (hrej : photo = none ∨ ∃ f, photo = some f ∧
      (strStartsWith f.mimetype "image/" = false ∨ f.size > fileSizeLimit)) :
    (postUpload md5 rand ts publicUrl storageErr photo).snd = [] := by
  rcases hrej with h | ⟨f, hf, hcase⟩
  · subst h
    rfl
  · subst hf
    rcases hcase with hmt | hsz
    · simp [postUpload, multerSingle, hmt, errorMiddleware]
    · rcases hb : strStartsWith f.mimetype "image/" with _ | _
      · simp [postUpload, multerSingle, hb, errorMiddleware]
      · simp [postUpload, multerSingle, hb, hsz, errorMiddleware]

/-- Claim C5, witness at a request with no file. -/
theorem C5_witness :
    ((none : Option UploadedFile) = none ∨ ∃ f, (none : Option UploadedFile) = some f ∧
      (strStartsWith f.mimetype "image/" = false ∨ f.size > fileSizeLimit)) ∧
    (postUpload md5Const randConst 1 (fun s => s) none none).snd = [] :=
  ⟨Or.inl rfl, C5_no_storage_call_on_client_error md5Const randConst 1 (fun s => s)
    none none (Or.inl rfl)⟩

/-- Claim C7, counterexample: a 6MB PDF upload exceeds the size cap yet is
answered 500 with the image-only error, not 400 with the file-too-large
error: the fileFilter rejects the file before the size limit is ever
measured. -/
theorem C7_counterexample :
    (⟨"big.pdf", "application/pdf", 6 * 1024 * 1024⟩ : UploadedFile).size > fileSizeLimit ∧
    (postUpload md5Const randConst 2 (fun s => s) none
        (some ⟨"big.pdf", "application/pdf", 6 * 1024 * 1024⟩)).fst.status = 500 ∧
    (postUpload md5Const randConst 2 (fun s => s) none
        (some ⟨"big.pdf", "application/pdf", 6 * 1024 * 1024⟩)).fst ≠
      ⟨400, .err false "File too large (max 5MB)"⟩ := by
  decide

/-- Claim C7 as amended: an upload whose file has an image MIME type and
exceeds the 5MB cap is answered HTTP 400 with the file-too-large error
and makes no storage call. -/
theorem C7_oversized_image (md5 : String → List Nat) (rand : List Nat) (ts : Nat)
    (publicUrl : String → String) (storageErr : Option String) (f : UploadedFile)
    (hmt : strStartsWith f.mimetype "image/" = true)
    (hsz : f.size > fileSizeLimit) :
    postUpload md5 rand ts publicUrl storageErr (some f) =
      (⟨400, .err false "File too large (max 5MB)"⟩, []) := by
  simp [postUpload, multerSingle, hmt, hsz, errorMiddleware]

/-- Claim C7, witness at a 6MB JPEG upload. -/
theorem C7_witness :
    (strStartsWith "image/jpeg" "image/" = true) ∧
    ((⟨"big.jpg", "image/jpeg", 6 * 1024 * 1024⟩ : UploadedFile).size > fileSizeLimit) ∧
    postUpload md5Const randConst 9 (fun s => s) none
        (some ⟨"big.jpg", "image/jpeg", 6 * 1024 * 1024⟩) =
      (⟨400, .err false "File too large (max 5MB)"⟩, []) :=
  ⟨by decide, by decide, C7_oversized_image md5Const randConst 9 (fun s => s) none
    ⟨"big.jpg", "image/jpeg", 6 * 1024 * 1024⟩ (by decide) (by decide)⟩

/-- Claim C8: every GET health request is answered HTTP 200 with status
OK, service Photo Upload API, and a well-formed ISO-8601 timestamp. -/
theorem C8_health (now : Nat) :
    (healthHandler now).fst = 200 ∧
    (healthHandler now).snd.status = "OK" ∧
    (healthHandler now).snd.service = "Photo Upload API" ∧
    isIso8601 (healthHandler now).snd.timestamp := by
  refine ⟨rfl, rfl, rfl, ?_⟩
  show isIso8601 (toISOString now)
  unfold isIso8601 toISOString
  refine ⟨_, _, _, _, _, _, _, rfl, rfl, rfl, rfl, rfl, rfl, rfl, rfl, ?_⟩
  simp [pad4, pad2, pad3, List.all_append, isDigitChar_digitChar]

end PhotoUpload
